import Mathlib

/-!
Shallow embedding of the TrinityBot post store (internal/storage/posts.go) and
the publish orchestrator (internal/bot handlers), together with proofs of the
behavioural properties stated in the specification.

Database tables are modelled as lists of rows inside a `StoreState`; each Go
repository method becomes a pure state-passing function, with `Except String`
for the fallible ones.  Go `string` values are modelled as Lean `String`
except where the source manipulates raw bytes (the Pinterest title
truncation), where the text is modelled as its UTF-8 byte sequence.
-/

deriving instance DecidableEq for Except

namespace TrinityBot

/-- Platforms supported (storage/posts.go line 13, `Platforms`). -/
def Platforms : List String := ["twitter", "pinterest", "facebook", "instagram", "tiktok"]

/-- ASCII lowercasing of one character; models Go `strings.ToLower` on the
ASCII range (the only range the program ever lowercases in practice). -/
def charToLower (c : Char) : Char :=
  if 65 ≤ c.toNat ∧ c.toNat ≤ 90 then Char.ofNat (c.toNat + 32) else c

/-- Go `strings.ToLower`, modelled on the ASCII range. -/
def goToLower (s : String) : String := ⟨s.data.map charToLower⟩

/-- validPlatform (storage/posts.go lines 15-23): lowercases the argument and
scans the enumerated `Platforms` list for it. -/
def validPlatform (p : String) : Bool := Platforms.contains (goToLower p)

/-- Row of the `posts` table / the Go `Post` struct (timestamps omitted:
real time is not modelled). `text_content` is a nullable column, hence
`Option String`. -/
structure PostRow where
  id : Int
  telegramUserId : Int
  chatId : Int
  messageId : Int
  type : String
  textContent : Option String
  photoFileId : Option String
  status : String
deriving Repr, DecidableEq

/-- Row of the `post_targets` table. -/
structure TargetRow where
  postId : Int
  platform : String
  status : String
  externalPostId : Option String
  error : Option String
deriving Repr, DecidableEq

/-- Row of the `post_media` table / the Go `PostMedia` struct. -/
structure MediaRow where
  id : Int
  postId : Int
  fileId : String
  mediaType : String
  position : Int
deriving Repr, DecidableEq

/-- Row of the `post_logs` table. -/
structure LogRow where
  postId : Int
  platform : Option String
  event : String
  detail : String
deriving Repr, DecidableEq

/-- The whole database state, plus the serial-id counter for `post_media`. -/
structure StoreState where
  posts : List PostRow
  targets : List TargetRow
  media : List MediaRow
  logs : List LogRow
  nextMediaId : Int
deriving Repr, DecidableEq

/-- ToggleTarget (storage/posts.go lines 77-100): lowercases the platform,
validates it, then deletes the selection row if one exists for the
(post, platform) pair, otherwise inserts one with status `pending`.
Returns the enabled state after the toggle. -/
def ToggleTarget (st : StoreState) (postID : Int) (platform : String) :
    Except String (Bool × StoreState) :=
  let p := goToLower platform
  if ¬ validPlatform p then Except.error ("invalid platform: " ++ p)
  else if st.targets.any (fun t => t.postId == postID && t.platform == p) then
    Except.ok (false, { st with
      targets := st.targets.filter (fun t => !(t.postId == postID && t.platform == p)) })
  else
    Except.ok (true, { st with
      targets := st.targets ++ [⟨postID, p, "pending", none, none⟩] })

/-- Insert-or-update on the association-list model of a Go `map`:
updates every entry with the key, or appends a new entry. -/
def mapSet (m : List (String × Bool)) (k : String) (v : Bool) : List (String × Bool) :=
  if m.any (fun kv => kv.1 == k) then
    m.map (fun kv => if kv.1 == k then (k, v) else kv)
  else m ++ [(k, v)]

/-- Go map lookup with the zero-value default `false`. -/
def mapGet (m : List (String × Bool)) (k : String) : Bool :=
  match m.find? (fun kv => kv.1 == k) with
  | some kv => kv.2
  | none => false

/-- ListTargets (storage/posts.go lines 102-120): initializes every enumerated
platform to `false`, then marks the lowercased platform of each selection row
of the post as `true`. -/
def ListTargets (st : StoreState) (postID : Int) : List (String × Bool) :=
  (st.targets.filter (fun t => t.postId == postID)).foldl
    (fun m t => mapSet m (goToLower t.platform) true)
    (Platforms.map (fun p => (p, false)))

/-- SetPostStatus (storage/posts.go lines 122-128). -/
def SetPostStatus (st : StoreState) (postID : Int) (status : String) : StoreState :=
  { st with posts := st.posts.map (fun r =>
      if r.id == postID then { r with status := status } else r) }

/-- GetPost (storage/posts.go lines 130-145): first row with the id, or a
not-found error. -/
def GetPost (st : StoreState) (id : Int) : Except String PostRow :=
  match st.posts.find? (fun r => r.id == id) with
  | some r => Except.ok r
  | none => Except.error "post not found"

/-- SetTargetStatus (storage/posts.go lines 147-157): upsert keyed on
(post id, lowercased platform); on conflict overwrites status, external post
id and error text. -/
def SetTargetStatus (st : StoreState) (postID : Int) (platform status : String)
    (externalID errText : Option String) : StoreState :=
  let p := goToLower platform
  { st with targets :=
      if st.targets.any (fun t => t.postId == postID && t.platform == p) then
        st.targets.map (fun t =>
          if t.postId == postID && t.platform == p then
            { t with status := status, externalPostId := externalID, error := errText }
          else t)
      else st.targets ++ [⟨postID, p, status, externalID, errText⟩] }

/-- AddLog (storage/posts.go lines 159-165): append-only insert. -/
def AddLog (st : StoreState) (postID : Int) (platform : Option String)
    (event detail : String) : StoreState :=
  { st with logs := st.logs ++ [⟨postID, platform, event, detail⟩] }

/-- SQL `MAX` over a column, `none` on an empty set. -/
def maxPos : List Int → Option Int
  | [] => none
  | p :: ps =>
    match maxPos ps with
    | none => some p
    | some m => some (max p m)

/-- Positions of a post's media rows, in table order. -/
def postPositions (st : StoreState) (postID : Int) : List Int :=
  (st.media.filter (fun m => m.postId == postID)).map (fun m => m.position)

/-- The `COALESCE(MAX(position)+1, 0)` query of AddMedia. -/
def nextPosition (st : StoreState) (postID : Int) : Int :=
  match maxPos (postPositions st postID) with
  | none => 0
  | some m => m + 1

/-- AddMedia (storage/posts.go lines 175-190): computes the next position as
`COALESCE(MAX(position)+1, 0)`, defaults an empty media type to `photo`, and
inserts the row, returning the new serial id.  The operation performs no
capacity check of its own. -/
def AddMedia (st : StoreState) (postID : Int) (fileID mediaType : String) :
    Int × StoreState :=
  let pos := nextPosition st postID
  let mt := if mediaType == "" then "photo" else mediaType
  let id := st.nextMediaId
  (id, { st with
    media := st.media ++ [⟨id, postID, fileID, mt, pos⟩],
    nextMediaId := id + 1 })

/-- CountMedia (storage/posts.go lines 209-215). -/
def CountMedia (st : StoreState) (postID : Int) : Nat :=
  (st.media.filter (fun m => m.postId == postID)).length

/-- Text value produced by AppendPostText's SQL `CASE`: a NULL or empty
existing text is replaced by the new text, otherwise a newline separator is
inserted between the old and the new text. -/
def appendTextVal (old : Option String) (t : String) : String :=
  match old with
  | none => t
  | some s => if s == "" then t else s ++ "\n" ++ t

/-- AppendPostText (storage/posts.go lines 225-231). -/
def AppendPostText (st : StoreState) (postID : Int) (t : String) : StoreState :=
  { st with posts := st.posts.map (fun r =>
      if r.id == postID then { r with textContent := some (appendTextVal r.textContent t) } else r) }

/-- UpdatePostText (storage/posts.go lines 217-223). -/
def UpdatePostText (st : StoreState) (postID : Int) (t : String) : StoreState :=
  { st with posts := st.posts.map (fun r =>
      if r.id == postID then { r with textContent := some t } else r) }

/-!
Publish orchestrator (internal/bot handlers, `publishSelected` and the four
per-platform publishers).  Each publisher's connector pipeline — credential
checks, Telegram media download and the outbound HTTP call — is collapsed
into an environment outcome per platform, because every failure path of a
publisher in the source performs the same store writes
(`SetTargetStatus failed` + `AddLog error`) before returning the error, and
the success path performs `SetTargetStatus published` + `AddLog published`.
-/

/-- Per-platform connector outcome: an error message, or the external id
assigned by the platform. -/
structure PublishEnv where
  outcome : String → Except String String

/-- The store writes every per-platform publisher performs around its
connector call: on failure, the failed target row and an error log, returning
the error; on success, the published target row carrying the external id and
a published log whose detail is `tag ++ externalId`. -/
def attemptWrite (platform tag : String) (res : Except String String)
    (st : StoreState) (pid : Int) : StoreState × Except String Unit :=
  match res with
  | Except.error msg =>
    (AddLog (SetTargetStatus st pid platform "failed" none (some msg))
      pid (some platform) "error" msg, Except.error msg)
  | Except.ok extId =>
    (AddLog (SetTargetStatus st pid platform "published" (some extId) none)
      pid (some platform) "published" (tag ++ extId), Except.ok ())

/-- publishToTwitter (handlers lines 529-589): detail tag `tweet_id=`. -/
def publishToTwitter (env : PublishEnv) (st : StoreState) (post : PostRow) :
    StoreState × Except String Unit :=
  attemptWrite "twitter" "tweet_id=" (env.outcome "twitter") st post.id

/-- publishToPinterest (handlers lines 591-649): detail tag `pin_id=`. -/
def publishToPinterest (env : PublishEnv) (st : StoreState) (post : PostRow) :
    StoreState × Except String Unit :=
  attemptWrite "pinterest" "pin_id=" (env.outcome "pinterest") st post.id

/-- publishToFacebook (handlers lines 651-697): detail tag `id=`. -/
def publishToFacebook (env : PublishEnv) (st : StoreState) (post : PostRow) :
    StoreState × Except String Unit :=
  attemptWrite "facebook" "id=" (env.outcome "facebook") st post.id

/-- publishToInstagram (handlers lines 699-747): detail tag `id=`. -/
def publishToInstagram (env : PublishEnv) (st : StoreState) (post : PostRow) :
    StoreState × Except String Unit :=
  attemptWrite "instagram" "id=" (env.outcome "instagram") st post.id

/-- Sequencing of Go's `if err := f(); err != nil { return err }` pattern:
run the continuation only when the previous step succeeded. -/
def andThen (r : StoreState × Except String Unit)
    (f : StoreState → StoreState × Except String Unit) :
    StoreState × Except String Unit :=
  match r with
  | (st, Except.error e) => (st, Except.error e)
  | (st, Except.ok _) => f st

/-- publishSelected (handlers lines 497-527): loads the selections and the
post, then attempts twitter, pinterest, facebook and instagram — in exactly
that order — returning on the first failure.  The source has no branch for a
tiktok selection. -/
def publishSelected (env : PublishEnv) (st : StoreState) (postID : Int) :
    StoreState × Except String Unit :=
  let selections := ListTargets st postID
  match GetPost st postID with
  | Except.error e => (st, Except.error e)
  | Except.ok post =>
    andThen (andThen (andThen
      (if mapGet selections "twitter" then publishToTwitter env st post
       else (st, Except.ok ()))
      (fun st1 => if mapGet selections "pinterest" then publishToPinterest env st1 post
       else (st1, Except.ok ())))
      (fun st2 => if mapGet selections "facebook" then publishToFacebook env st2 post
       else (st2, Except.ok ())))
      (fun st3 => if mapGet selections "instagram" then publishToInstagram env st3 post
       else (st3, Except.ok ()))

/-- The `pub` callback action (handlers lines 237-252): sets the post status
to `queued`, then immediately runs `publishSelected`. -/
def handlePub (env : PublishEnv) (st : StoreState) (postID : Int) :
    StoreState × Except String Unit :=
  publishSelected env (SetPostStatus st postID "queued") postID

/-- Compose-step media guard (handlers `handleMessage`, lines 52-68 and
70-87): the handler counts the post's media and only calls AddMedia while
the count is below 10, otherwise it refuses.  Returns the new state and
whether an item was added. -/
def composeAddMedia (st : StoreState) (postID : Int) (fileID mediaType : String) :
    StoreState × Bool :=
  if CountMedia st postID < 10 then ((AddMedia st postID fileID mediaType).2, true)
  else (st, false)

/-- Pin title computation of publishToPinterest (handlers lines 635-639).
Go `len` and string slicing are byte-wise, so the post text is modelled as
its UTF-8 byte sequence; `title[:100]` may cut through a multi-byte
character. -/
def pinTitle (text : List UInt8) : List UInt8 :=
  if text.length > 100 then text.take 100 else text

/-- Pin description argument of the CreatePin call (handlers line 640): the
full, untruncated post text. -/
def pinDescription (text : List UInt8) : List UInt8 := text

/-!
Observation helpers used by the theorem statements.
-/

/-- Target rows of a post for one platform, in table order. -/
def targetRows (st : StoreState) (postID : Int) (p : String) : List TargetRow :=
  st.targets.filter (fun t => t.postId == postID && t.platform == p)

/-- Status of the first target row of a post for one platform. -/
def targetStatusOf (st : StoreState) (postID : Int) (p : String) : Option String :=
  (st.targets.find? (fun t => t.postId == postID && t.platform == p)).map
    (fun t => t.status)

/-- Log rows attributed to one platform, in table order. -/
def logsFor (st : StoreState) (p : String) : List LogRow :=
  st.logs.filter (fun l => l.platform == some p)

/-- Status of the first posts row with the given id. -/
def postStatus (st : StoreState) (postID : Int) : Option String :=
  (st.posts.find? (fun r => r.id == postID)).map (fun r => r.status)

/-- Text content of the first posts row with the given id. -/
def postText (st : StoreState) (postID : Int) : Option (Option String) :=
  (st.posts.find? (fun r => r.id == postID)).map (fun r => r.textContent)

/-- All target rows of one post, in table order. -/
def targetRowsAll (st : StoreState) (postID : Int) : List TargetRow :=
  st.targets.filter (fun t => t.postId == postID)

/-- State effect of one conditional publish step of the orchestrator when the
connector outcome is a success: the published target row and the published
log entry are written exactly when the platform is selected. -/
def okStep (st : StoreState) (pid : Int) (sel : List (String × Bool))
    (p tag ext : String) : StoreState :=
  if mapGet sel p then
    AddLog (SetTargetStatus st pid p "published" (some ext) none)
      pid (some p) "published" (tag ++ ext)
  else st

/-- Iterated AddMedia, one call per (file id, media type) pair. -/
def addMediaAll (st : StoreState) (pid : Int) (fs : List (String × String)) : StoreState :=
  fs.foldl (fun s fm => (AddMedia s pid fm.1 fm.2).2) st

/-!
Concrete sample data used by counterexamples and witnesses.
-/

/-- Environment in which every connector call succeeds with id `ext-1`. -/
def envOkSample : PublishEnv := ⟨fun _ => Except.ok "ext-1"⟩

/-- Environment in which the twitter connector fails and every other one
succeeds. -/
def envTwitterFail : PublishEnv :=
  ⟨fun p => if p == "twitter" then Except.error "boom" else Except.ok "ext-1"⟩

/-- Environment in which the pinterest connector fails and every other one
succeeds. -/
def envPinterestFail : PublishEnv :=
  ⟨fun p => if p == "pinterest" then Except.error "boom" else Except.ok "ext-1"⟩

/-- A sample post row. -/
def postSample : PostRow := ⟨1, 10, 20, 30, "text", some "hello", none, "draft"⟩

/-- A post with no targets, media or logs. -/
def stFresh : StoreState := ⟨[postSample], [], [], [], 1⟩

/-- A post whose only selected target is tiktok. -/
def stTiktokOnly : StoreState :=
  ⟨[postSample], [⟨1, "tiktok", "pending", none, none⟩], [], [], 1⟩

/-- A post with twitter and pinterest selected. -/
def stTwitterPinterest : StoreState :=
  ⟨[postSample],
   [⟨1, "twitter", "pending", none, none⟩, ⟨1, "pinterest", "pending", none, none⟩],
   [], [], 1⟩

/-- A post that already has 10 media items, at positions 0 through 9. -/
def stMedia10 : StoreState :=
  ⟨[postSample], [],
   (List.range 10).map (fun i => ⟨Int.ofNat i, 1, "f", "photo", Int.ofNat i⟩),
   [], 11⟩

/-- A post that has 9 media items, at positions 0 through 8. -/
def stMedia9 : StoreState :=
  ⟨[postSample], [],
   (List.range 9).map (fun i => ⟨Int.ofNat i, 1, "f", "photo", Int.ofNat i⟩),
   [], 10⟩

/-- A post whose text content is the non-empty string `a`. -/
def stTextA : StoreState :=
  ⟨[⟨1, 10, 20, 30, "text", some "a", none, "draft"⟩], [], [], [], 1⟩

/-- A post whose text content is the empty string. -/
def stTextEmpty : StoreState :=
  ⟨[⟨1, 10, 20, 30, "text", some "", none, "draft"⟩], [], [], [], 1⟩

/-!
Generic list lemmas about the update-in-place pattern used by the SQL
`UPDATE ... WHERE` statements in the model.
-/

/-- Updating exactly the rows matched by `pred` commutes with `find? pred`,
provided the update keeps matched rows matched. -/
theorem find?_ifMap {α : Type} (l : List α) (pred : α → Bool) (f : α → α)
    (hf : ∀ a, pred a = true → pred (f a) = true) :
    (l.map (fun a => if pred a then f a else a)).find? pred =
      (l.find? pred).map f := by
  induction l with
  | nil => rfl
  | cons h t ih =>
    by_cases hp : pred h = true
    · simp [List.find?, hp, hf h hp]
    · simp only [Bool.not_eq_true] at hp
      simp [List.find?, hp, ih]

/-- Updating the rows matched by `pred` is invisible to `find? pred'` when
the two predicates are disjoint and the update preserves `pred'`. -/
theorem find?_ifMap_disjoint {α : Type} (l : List α) (pred pred' : α → Bool)
    (f : α → α) (hdisj : ∀ a, pred' a = true → pred a = false)
    (hpres : ∀ a, pred' (f a) = pred' a) :
    (l.map (fun a => if pred a then f a else a)).find? pred' = l.find? pred' := by
  induction l with
  | nil => rfl
  | cons h t ih =>
    by_cases hp : pred h = true
    · have hp' : pred' h = false := by
        by_contra hc
        simp only [Bool.not_eq_false] at hc
        simp [hdisj h hc] at hp
      simp [List.find?, hp, hpres, hp', ih]
    · simp only [Bool.not_eq_true] at hp
      by_cases hq : pred' h = true
      · simp [List.find?, hp, hq]
      · simp only [Bool.not_eq_true] at hq
        simp [List.find?, hp, hq, ih]

/-- Updating the rows matched by `pred` is invisible to `filter pred'` when
the two predicates are disjoint and the update preserves `pred'`. -/
theorem filter_ifMap_disjoint {α : Type} (l : List α) (pred pred' : α → Bool)
    (f : α → α) (hdisj : ∀ a, pred' a = true → pred a = false)
    (hpres : ∀ a, pred' (f a) = pred' a) :
    (l.map (fun a => if pred a then f a else a)).filter pred' = l.filter pred' := by
  induction l with
  | nil => rfl
  | cons h t ih =>
    by_cases hp : pred h = true
    · have hp' : pred' h = false := by
        by_contra hc
        simp only [Bool.not_eq_false] at hc
        simp [hdisj h hc] at hp
      simp [List.filter, hp, hpres, hp', ih]
    · simp only [Bool.not_eq_true] at hp
      by_cases hq : pred' h = true
      · simp [List.filter, hp, hq, ih]
      · simp only [Bool.not_eq_true] at hq
        simp [List.filter, hp, hq, ih]

/-!
Projection lemmas for the store operations.
-/

@[simp]
theorem posts_SetTargetStatus (st : StoreState) (postID : Int) (p s : String)
    (e er : Option String) : (SetTargetStatus st postID p s e er).posts = st.posts := rfl

@[simp]
theorem media_SetTargetStatus (st : StoreState) (postID : Int) (p s : String)
    (e er : Option String) : (SetTargetStatus st postID p s e er).media = st.media := rfl

@[simp]
theorem logs_SetTargetStatus (st : StoreState) (postID : Int) (p s : String)
    (e er : Option String) : (SetTargetStatus st postID p s e er).logs = st.logs := rfl

@[simp]
theorem posts_AddLog (st : StoreState) (postID : Int) (pl : Option String)
    (ev d : String) : (AddLog st postID pl ev d).posts = st.posts := rfl

@[simp]
theorem targets_AddLog (st : StoreState) (postID : Int) (pl : Option String)
    (ev d : String) : (AddLog st postID pl ev d).targets = st.targets := rfl

@[simp]
theorem media_AddLog (st : StoreState) (postID : Int) (pl : Option String)
    (ev d : String) : (AddLog st postID pl ev d).media = st.media := rfl

@[simp]
theorem logs_AddLog (st : StoreState) (postID : Int) (pl : Option String)
    (ev d : String) : (AddLog st postID pl ev d).logs = st.logs ++ [⟨postID, pl, ev, d⟩] := rfl

@[simp]
theorem targetStatusOf_AddLog (st : StoreState) (postID : Int) (pl : Option String)
    (ev d : String) (pid : Int) (p : String) :
    targetStatusOf (AddLog st postID pl ev d) pid p = targetStatusOf st pid p := rfl

@[simp]
theorem targetRows_AddLog (st : StoreState) (postID : Int) (pl : Option String)
    (ev d : String) (pid : Int) (p : String) :
    targetRows (AddLog st postID pl ev d) pid p = targetRows st pid p := rfl

@[simp]
theorem andThen_ok (s : StoreState) (u : Unit)
    (f : StoreState → StoreState × Except String Unit) :
    andThen (s, Except.ok u) f = f s := rfl

@[simp]
theorem andThen_err (s : StoreState) (e : String)
    (f : StoreState → StoreState × Except String Unit) :
    andThen (s, Except.error e) f = (s, Except.error e) := rfl

/-- After the upsert, the first target row for its own key has the written
status (requires the platform argument to be already lowercase, which holds
for every call site in the orchestrator). -/
theorem targetStatusOf_set_same (st : StoreState) (pid : Int) (p s : String)
    (e er : Option String) (hp : goToLower p = p) :
    targetStatusOf (SetTargetStatus st pid p s e er) pid p = some s := by
  unfold SetTargetStatus targetStatusOf
  dsimp only
  simp only [hp]
  by_cases hex : st.targets.any (fun t => t.postId == pid && t.platform == p) = true
  · simp only [hex, if_true]
    rw [find?_ifMap st.targets (fun t => t.postId == pid && t.platform == p)
      (fun t => { t with status := s, externalPostId := e, error := er }) (fun a ha => ha)]
    obtain ⟨t0, ht0⟩ := Option.isSome_iff_exists.mp
      (List.find?_isSome.mpr (List.any_eq_true.mp hex))
    rw [ht0]
    rfl
  · have hnone : st.targets.find? (fun t => t.postId == pid && t.platform == p) = none := by
      rw [List.find?_eq_none]
      intro x hx hpx
      exact hex (List.any_eq_true.mpr ⟨x, hx, hpx⟩)
    simp only [Bool.not_eq_true] at hex
    rw [hex, if_neg Bool.false_ne_true, List.find?_append, hnone]
    simp [List.find?]

/-- The upsert leaves every target row of a different (post, platform) key
untouched, as seen through `targetRows`. -/
theorem targetRows_set_other (st : StoreState) (pid : Int) (p s : String)
    (e er : Option String) (pid' : Int) (p' : String)
    (h : ¬(pid' = pid ∧ p' = goToLower p)) :
    targetRows (SetTargetStatus st pid p s e er) pid' p' = targetRows st pid' p' := by
  unfold SetTargetStatus targetRows
  dsimp only
  have hdisj : ∀ (t : TargetRow), (t.postId == pid' && t.platform == p') = true →
      (t.postId == pid && t.platform == goToLower p) = false := by
    intro t ht
    by_contra hc
    simp only [Bool.not_eq_false, Bool.and_eq_true, beq_iff_eq] at hc ht
    exact h ⟨ht.1 ▸ hc.1, ht.2 ▸ hc.2⟩
  by_cases hex : st.targets.any (fun t => t.postId == pid && t.platform == goToLower p) = true
  · simp only [hex, if_true]
    exact filter_ifMap_disjoint st.targets
      (fun t => t.postId == pid && t.platform == goToLower p)
      (fun t => t.postId == pid' && t.platform == p')
      (fun t => { t with status := s, externalPostId := e, error := er })
      hdisj (fun a => rfl)
  · have hnew : ((pid == pid' && goToLower p == p') : Bool) = false := by
      by_contra hc
      simp only [Bool.not_eq_false, Bool.and_eq_true, beq_iff_eq] at hc
      exact h ⟨hc.1.symm, hc.2.symm⟩
    simp only [Bool.not_eq_true] at hex
    rw [hex, if_neg Bool.false_ne_true, List.filter_append]
    simp [List.filter, hnew]

/-- The upsert leaves the first target row of a different key untouched, as
seen through `targetStatusOf`. -/
theorem targetStatusOf_set_other (st : StoreState) (pid : Int) (p s : String)
    (e er : Option String) (pid' : Int) (p' : String)
    (h : ¬(pid' = pid ∧ p' = goToLower p)) :
    targetStatusOf (SetTargetStatus st pid p s e er) pid' p' =
      targetStatusOf st pid' p' := by
  unfold SetTargetStatus targetStatusOf
  dsimp only
  have hdisj : ∀ (t : TargetRow), (t.postId == pid' && t.platform == p') = true →
      (t.postId == pid && t.platform == goToLower p) = false := by
    intro t ht
    by_contra hc
    simp only [Bool.not_eq_false, Bool.and_eq_true, beq_iff_eq] at hc ht
    exact h ⟨ht.1 ▸ hc.1, ht.2 ▸ hc.2⟩
  by_cases hex : st.targets.any (fun t => t.postId == pid && t.platform == goToLower p) = true
  · simp only [hex, if_true]
    rw [find?_ifMap_disjoint st.targets
      (fun t => t.postId == pid && t.platform == goToLower p)
      (fun t => t.postId == pid' && t.platform == p')
      (fun t => { t with status := s, externalPostId := e, error := er })
      hdisj (fun a => rfl)]
  · have hnew : ((pid == pid' && goToLower p == p') : Bool) = false := by
      by_contra hc
      simp only [Bool.not_eq_false, Bool.and_eq_true, beq_iff_eq] at hc
      exact h ⟨hc.1.symm, hc.2.symm⟩
    simp only [Bool.not_eq_true] at hex
    rw [hex, if_neg Bool.false_ne_true, List.find?_append]
    simp [List.find?, hnew]

/-- Appending a log row for a different platform is invisible to `logsFor`. -/
theorem logsFor_AddLog_other (st : StoreState) (pid : Int) (pl : Option String)
    (ev d : String) (p : String) (h : pl ≠ some p) :
    logsFor (AddLog st pid pl ev d) p = logsFor st p := by
  have : ((pl == some p) : Bool) = false := by simpa using h
  simp [logsFor, List.filter_append, List.filter, this]

/-- SetPostStatus rewrites exactly the status of the addressed post. -/
theorem postStatus_SetPostStatus (st : StoreState) (pid : Int) (s : String) :
    postStatus (SetPostStatus st pid s) pid = (postStatus st pid).map (fun _ => s) := by
  unfold SetPostStatus postStatus
  dsimp only
  rw [find?_ifMap st.posts (fun r => r.id == pid)
    (fun r => { r with status := s }) (fun a ha => ha)]
  cases st.posts.find? (fun r => r.id == pid) <;> rfl

/-- AppendPostText rewrites exactly the text of the addressed post, through
`appendTextVal`. -/
theorem postText_AppendPostText (st : StoreState) (pid : Int) (t : String) :
    postText (AppendPostText st pid t) pid =
      (postText st pid).map (fun old => some (appendTextVal old t)) := by
  unfold AppendPostText postText
  dsimp only
  rw [find?_ifMap st.posts (fun r => r.id == pid)
    (fun r => { r with textContent := some (appendTextVal r.textContent t) })
    (fun a ha => ha)]
  cases st.posts.find? (fun r => r.id == pid) <;> rfl

/-- GetPost only succeeds with a row carrying the requested id. -/
theorem GetPost_ok_id (st : StoreState) (pid : Int) (r : PostRow)
    (h : GetPost st pid = Except.ok r) : r.id = pid := by
  unfold GetPost at h
  cases hf : st.posts.find? (fun q => q.id == pid) with
  | none => rw [hf] at h; exact absurd h (by simp)
  | some q =>
    rw [hf] at h
    have hq := List.find?_some hf
    cases h
    exact by simpa using hq

@[simp]
theorem logsFor_SetTargetStatus (st : StoreState) (postID : Int) (p s : String)
    (e er : Option String) (q : String) :
    logsFor (SetTargetStatus st postID p s e er) q = logsFor st q := rfl

theorem okStep_posts (st : StoreState) (pid : Int) (sel : List (String × Bool))
    (p tag ext : String) : (okStep st pid sel p tag ext).posts = st.posts := by
  unfold okStep
  split <;> simp

theorem okStep_logs (st : StoreState) (pid : Int) (sel : List (String × Bool))
    (p tag ext : String) :
    (okStep st pid sel p tag ext).logs = st.logs ++
      (if mapGet sel p then [⟨pid, some p, "published", tag ++ ext⟩] else []) := by
  unfold okStep
  split <;> simp

theorem targetStatusOf_okStep_same (st : StoreState) (pid : Int)
    (sel : List (String × Bool)) (p tag ext : String)
    (hsel : mapGet sel p = true) (hp : goToLower p = p) :
    targetStatusOf (okStep st pid sel p tag ext) pid p = some "published" := by
  unfold okStep
  rw [if_pos hsel]
  simp only [targetStatusOf_AddLog]
  exact targetStatusOf_set_same st pid p "published" (some ext) none hp

theorem targetStatusOf_okStep_other (st : StoreState) (pid : Int)
    (sel : List (String × Bool)) (p tag ext : String) (pid' : Int) (q : String)
    (h : ¬(pid' = pid ∧ q = goToLower p)) :
    targetStatusOf (okStep st pid sel p tag ext) pid' q = targetStatusOf st pid' q := by
  unfold okStep
  split
  · simp only [targetStatusOf_AddLog]
    exact targetStatusOf_set_other st pid p "published" (some ext) none pid' q h
  · rfl

theorem targetRows_okStep_other (st : StoreState) (pid : Int)
    (sel : List (String × Bool)) (p tag ext : String) (pid' : Int) (q : String)
    (h : ¬(pid' = pid ∧ q = goToLower p)) :
    targetRows (okStep st pid sel p tag ext) pid' q = targetRows st pid' q := by
  unfold okStep
  split
  · simp only [targetRows_AddLog]
    exact targetRows_set_other st pid p "published" (some ext) none pid' q h
  · rfl

theorem logsFor_okStep_other (st : StoreState) (pid : Int)
    (sel : List (String × Bool)) (p tag ext : String) (q : String) (h : q ≠ p) :
    logsFor (okStep st pid sel p tag ext) q = logsFor st q := by
  unfold okStep
  split
  · rw [logsFor_AddLog_other _ _ _ _ _ _ (by simpa using h.symm)]
    simp
  · rfl

theorem attemptWrite_fst_posts (p tag : String) (res : Except String String)
    (st : StoreState) (pid : Int) :
    ((attemptWrite p tag res st pid).1).posts = st.posts := by
  cases res <;> rfl

theorem andThen_fst_posts (r : StoreState × Except String Unit)
    (f : StoreState → StoreState × Except String Unit)
    (hf : ∀ s, ((f s).1).posts = s.posts) :
    ((andThen r f).1).posts = (r.1).posts := by
  obtain ⟨s, e⟩ := r
  cases e with
  | error e => rfl
  | ok u => simpa [andThen] using hf s

/-- The orchestrator never touches the posts table: only target rows and log
entries record delivery results. -/
theorem publishSelected_fst_posts (env : PublishEnv) (st : StoreState) (postID : Int) :
    ((publishSelected env st postID).1).posts = st.posts := by
  unfold publishSelected
  dsimp only
  cases hg : GetPost st postID with
  | error e => rfl
  | ok post =>
    dsimp only
    rw [andThen_fst_posts _ _ (by
      intro s
      by_cases hb : mapGet (ListTargets st postID) "instagram" = true <;>
        simp [hb, publishToInstagram, attemptWrite_fst_posts])]
    rw [andThen_fst_posts _ _ (by
      intro s
      by_cases hb : mapGet (ListTargets st postID) "facebook" = true <;>
        simp [hb, publishToFacebook, attemptWrite_fst_posts])]
    rw [andThen_fst_posts _ _ (by
      intro s
      by_cases hb : mapGet (ListTargets st postID) "pinterest" = true <;>
        simp [hb, publishToPinterest, attemptWrite_fst_posts])]
    by_cases hb : mapGet (ListTargets st postID) "twitter" = true <;>
      simp [hb, publishToTwitter, attemptWrite_fst_posts]

theorem postStatus_congr (s1 s2 : StoreState) (pid : Int) (h : s1.posts = s2.posts) :
    postStatus s1 pid = postStatus s2 pid := by
  simp [postStatus, h]

/-- Full characterization of a publish run in which every connector call
succeeds: the four implemented platforms are attempted in enumeration order,
each conditionally on its selection, and the run returns success. -/
theorem publishSelected_allOk (env : PublishEnv) (extId : String → String)
    (henv : ∀ p, env.outcome p = Except.ok (extId p))
    (st : StoreState) (postID : Int) (post : PostRow)
    (hpost : GetPost st postID = Except.ok post) :
    publishSelected env st postID =
      (okStep (okStep (okStep (okStep st post.id (ListTargets st postID)
            "twitter" "tweet_id=" (extId "twitter"))
          post.id (ListTargets st postID) "pinterest" "pin_id=" (extId "pinterest"))
        post.id (ListTargets st postID) "facebook" "id=" (extId "facebook"))
      post.id (ListTargets st postID) "instagram" "id=" (extId "instagram"),
      Except.ok ()) := by
  unfold publishSelected
  dsimp only
  rw [hpost]
  dsimp only
  simp only [publishToTwitter, publishToPinterest, publishToFacebook,
    publishToInstagram, henv]
  by_cases h1 : mapGet (ListTargets st postID) "twitter" = true <;>
  by_cases h2 : mapGet (ListTargets st postID) "pinterest" = true <;>
  by_cases h3 : mapGet (ListTargets st postID) "facebook" = true <;>
  by_cases h4 : mapGet (ListTargets st postID) "instagram" = true <;>
  simp [okStep, attemptWrite, andThen, h1, h2, h3, h4]

/-- C7.  Appending to a NULL or empty text stores exactly the new text, with
no leading separator; appending to non-empty text concatenates the old text,
one newline, and the new text; appending `a` then `b` to an empty-text post
yields exactly `a` newline `b`. -/
theorem appendText_concat_semantics :
    (∀ t : String, appendTextVal none t = t ∧ appendTextVal (some "") t = t) ∧
    (∀ s t : String, s ≠ "" → appendTextVal (some s) t = s ++ "\n" ++ t) ∧
    (∀ (st : StoreState) (pid : Int),
      postText st pid = some none ∨ postText st pid = some (some "") →
      postText (AppendPostText (AppendPostText st pid "a") pid "b") pid =
        some (some ("a" ++ "\n" ++ "b"))) := by
  refine ⟨fun t => ⟨rfl, by simp [appendTextVal]⟩,
    fun s t hs => by simp [appendTextVal, hs], ?_⟩
  intro st pid h
  rw [postText_AppendPostText, postText_AppendPostText]
  rcases h with h | h <;> rw [h] <;> simp [appendTextVal]

/-- Witness for C7 at a concrete store. -/
theorem appendText_concat_semantics_witness :
    appendTextVal (some "x") "y" = "x" ++ "\n" ++ "y" ∧
    postText (AppendPostText (AppendPostText stTextEmpty 1 "a") 1 "b") 1 =
      some (some ("a" ++ "\n" ++ "b")) :=
  ⟨appendText_concat_semantics.2.1 "x" "y" (by decide),
   appendText_concat_semantics.2.2 stTextEmpty 1 (Or.inr (by decide))⟩

/-- C5 counterexample.  Appending the empty string to a post whose text is
the non-empty string `a` is not a no-op: the stored text becomes `a` followed
by the newline separator. -/
theorem appendText_empty_adds_separator_cex :
    postText stTextA 1 = some (some "a") ∧
    postText (AppendPostText stTextA 1 "") 1 = some (some ("a" ++ "\n")) ∧
    postText (AppendPostText stTextA 1 "") 1 ≠ some (some "a") := by decide

/-- C5 as amended.  Appending the empty string leaves a NULL or empty text
empty, but appends a trailing newline separator to a non-empty text; all
columns of the row other than the text, and all other tables, are
unchanged. -/
theorem appendText_empty_semantics :
    (appendTextVal none "" = "" ∧ appendTextVal (some "") "" = "") ∧
    (∀ s : String, s ≠ "" → appendTextVal (some s) "" = s ++ "\n") ∧
    (∀ (st : StoreState) (pid : Int) (t : String),
      (AppendPostText st pid t).posts.map
          (fun r => (r.id, r.telegramUserId, r.chatId, r.messageId, r.type,
            r.photoFileId, r.status)) =
        st.posts.map (fun r => (r.id, r.telegramUserId, r.chatId, r.messageId,
          r.type, r.photoFileId, r.status)) ∧
      (AppendPostText st pid t).targets = st.targets ∧
      (AppendPostText st pid t).media = st.media ∧
      (AppendPostText st pid t).logs = st.logs) := by
  refine ⟨⟨rfl, by simp [appendTextVal]⟩,
    fun s hs => by simp [appendTextVal, hs], ?_⟩
  intro st pid t
  refine ⟨?_, rfl, rfl, rfl⟩
  unfold AppendPostText
  dsimp only
  rw [List.map_map]
  apply List.map_congr_left
  intro r _
  by_cases h : r.id = pid <;> simp [h]

/-- Witness for C5's amended statement at a concrete store. -/
theorem appendText_empty_semantics_witness :
    appendTextVal (some "a") "" = "a" ++ "\n" ∧
    (AppendPostText stTextA 1 "").targets = stTextA.targets :=
  ⟨appendText_empty_semantics.2.1 "a" (by decide),
   (appendText_empty_semantics.2.2 stTextA 1 "").2.1⟩

/-- C10.  When the post text is longer than 100 bytes, the pin title passed
to the Pinterest connector is exactly the first 100 bytes of the text (a
byte-wise cut), while the pin description is always the full text; text of
100 bytes or fewer is used as the title unchanged. -/
theorem pinterest_title_truncation (t : List UInt8) :
    (t.length > 100 →
      pinTitle t = t.take 100 ∧ (pinTitle t).length = 100 ∧
      pinTitle t ++ t.drop 100 = t ∧ pinDescription t = t) ∧
    (t.length ≤ 100 → pinTitle t = t) := by
  constructor
  · intro h
    refine ⟨by simp [pinTitle, h], ?_, ?_, rfl⟩
    · simp only [pinTitle, if_pos h, List.length_take]
      omega
    · simp [pinTitle, h, List.take_append_drop]
  · intro h
    have hn : ¬ (t.length > 100) := by omega
    simp [pinTitle, hn]

/-- Witness for C10 at a concrete 101-byte text. -/
theorem pinterest_title_truncation_witness :
    pinTitle (List.replicate 101 (65 : UInt8)) =
      (List.replicate 101 (65 : UInt8)).take 100 ∧
    pinDescription (List.replicate 101 (65 : UInt8)) =
      List.replicate 101 (65 : UInt8) ∧
    pinTitle (List.replicate 100 (65 : UInt8)) = List.replicate 100 (65 : UInt8) := by
  have h1 := (pinterest_title_truncation (List.replicate 101 (65 : UInt8))).1 (by decide)
  have h2 := (pinterest_title_truncation (List.replicate 100 (65 : UInt8))).2 (by decide)
  exact ⟨h1.1, h1.2.2.2, h2⟩

/-- C2 counterexample.  AddMedia does not reject the 11th item: on a post
that already has 10 media items it inserts another row, at position 10, and
countMedia then returns 11. -/
theorem addMedia_accepts_eleventh_cex :
    CountMedia stMedia10 1 = 10 ∧
    CountMedia ((AddMedia stMedia10 1 "file-11" "photo").2) 1 = 11 ∧
    postPositions ((AddMedia stMedia10 1 "file-11" "photo").2) 1 =
      postPositions stMedia10 1 ++ [10] := by decide

/-- C2 as amended.  The 10-item cap is enforced by the compose message
handler, which calls AddMedia only while countMedia is below 10 and refuses
otherwise; AddMedia itself performs no capacity check, and each call
increments countMedia by one (so the 10th addition, when 9 exist, succeeds
and countMedia then returns 10). -/
theorem media_cap_enforced_by_handler (st : StoreState) (pid : Int) (f mt : String) :
    (CountMedia st pid ≥ 10 → composeAddMedia st pid f mt = (st, false)) ∧
    (CountMedia st pid < 10 →
      composeAddMedia st pid f mt = ((AddMedia st pid f mt).2, true)) ∧
    CountMedia ((AddMedia st pid f mt).2) pid = CountMedia st pid + 1 := by
  refine ⟨?_, ?_, ?_⟩
  · intro h
    unfold composeAddMedia
    rw [if_neg (by omega)]
  · intro h
    unfold composeAddMedia
    rw [if_pos h]
  · unfold CountMedia AddMedia
    dsimp only
    rw [List.filter_append]
    simp [List.filter]

/-- Witness for C2's amended statement: the handler refuses at 10 items, and
the 10th addition brings the count to exactly 10. -/
theorem media_cap_enforced_by_handler_witness :
    composeAddMedia stMedia10 1 "f" "photo" = (stMedia10, false) ∧
    CountMedia ((AddMedia stMedia9 1 "f" "photo").2) 1 = 10 := by
  constructor
  · exact (media_cap_enforced_by_handler stMedia10 1 "f" "photo").1 (by decide)
  · rw [(media_cap_enforced_by_handler stMedia9 1 "f" "photo").2.2]
    decide

/-- C4.  The pub callback sets the post status to queued before the
per-target loop, and neither publishSelected nor any per-platform publisher
writes the post row again: whatever the per-target outcomes, the post status
is still queued when publish completes. -/
theorem post_status_queued_after_publish (env : PublishEnv) (st : StoreState)
    (postID : Int) (post : PostRow) (hpost : GetPost st postID = Except.ok post) :
    postStatus ((handlePub env st postID).1) postID = some "queued" := by
  unfold handlePub
  rw [postStatus_congr _ (SetPostStatus st postID "queued") postID
    (publishSelected_fst_posts env (SetPostStatus st postID "queued") postID)]
  rw [postStatus_SetPostStatus]
  unfold GetPost at hpost
  cases hf : st.posts.find? (fun r => r.id == postID) with
  | none => rw [hf] at hpost; exact absurd hpost (by simp)
  | some r =>
    rw [hf] at hpost
    simp [postStatus, hf]

/-- Witness for C4: a run in which the only selected platform (twitter,
which fails in `envTwitterFail`) leaves the post status queued. -/
theorem post_status_queued_after_publish_witness :
    postStatus ((handlePub envTwitterFail stTwitterPinterest 1).1) 1 = some "queued" :=
  post_status_queued_after_publish envTwitterFail stTwitterPinterest 1 postSample
    (by decide)

/-- One conditional publish step of the orchestrator whose connector outcome
is a success (when consulted) reduces to its `okStep` state and a success
result. -/
theorem step_reduce_ok (env : PublishEnv) (extId : String → String)
    (sel : List (String × Bool)) (q tag : String) (pid : Int) (s : StoreState)
    (hq : mapGet sel q = true → env.outcome q = Except.ok (extId q)) :
    (if mapGet sel q then attemptWrite q tag (env.outcome q) s pid
     else (s, Except.ok ())) =
      (okStep s pid sel q tag (extId q), Except.ok ()) := by
  by_cases b : mapGet sel q = true
  · rw [if_pos b, hq b]
    simp [attemptWrite, okStep, b]
  · rw [if_neg b]
    simp only [Bool.not_eq_true] at b
    simp [okStep, b]

/-- One conditional publish step whose platform is selected and whose
connector outcome is an error reduces to the failure writes and the error
result. -/
theorem step_reduce_fail (env : PublishEnv) (sel : List (String × Bool))
    (q tag : String) (pid : Int) (s : StoreState) (msg : String)
    (hsel : mapGet sel q = true) (hfail : env.outcome q = Except.error msg) :
    (if mapGet sel q then attemptWrite q tag (env.outcome q) s pid
     else (s, Except.ok ())) =
      (AddLog (SetTargetStatus s pid q "failed" none (some msg))
        pid (some q) "error" msg, Except.error msg) := by
  rw [if_pos hsel, hfail]
  rfl

/-- The failure writes for one platform leave every other platform's target
rows and logs untouched. -/
theorem failWrites_preserve (s : StoreState) (pid pid' : Int)
    (pfail msg q : String) (h1 : ¬(q = goToLower pfail)) (h2 : q ≠ pfail) :
    targetRows (AddLog (SetTargetStatus s pid pfail "failed" none (some msg))
      pid (some pfail) "error" msg) pid' q = targetRows s pid' q ∧
    logsFor (AddLog (SetTargetStatus s pid pfail "failed" none (some msg))
      pid (some pfail) "error" msg) q = logsFor s q := by
  constructor
  · simp only [targetRows_AddLog]
    exact targetRows_set_other s pid pfail "failed" none (some msg) pid' q
      (by rintro ⟨-, hc⟩; exact h1 hc)
  · rw [logsFor_AddLog_other _ _ _ _ _ _
      (by intro hc; exact h2 (Option.some.inj hc).symm)]
    exact logsFor_SetTargetStatus s pid pfail "failed" none (some msg) q

/-- A successful publish step for one platform leaves every other platform's
target rows and logs untouched. -/
theorem okStep_preserve (s : StoreState) (pid pid' : Int)
    (sel : List (String × Bool)) (pok tag ext q : String)
    (h1 : ¬(q = goToLower pok)) (h2 : q ≠ pok) :
    targetRows (okStep s pid sel pok tag ext) pid' q = targetRows s pid' q ∧
    logsFor (okStep s pid sel pok tag ext) q = logsFor s q :=
  ⟨targetRows_okStep_other s pid sel pok tag ext pid' q
     (by rintro ⟨-, hc⟩; exact h1 hc),
   logsFor_okStep_other s pid sel pok tag ext q h2⟩

/-- C3.  For every publish invocation in which some platform's publish
attempt is made and fails — any platform p among the four dispatched ones,
with every platform earlier than p in the enumeration order either
unselected or succeeding, so that p's attempt actually happens — the
orchestrator returns that failure at once: p's target row is recorded
failed, and no platform later in the enumeration order (nor tiktok) is ever
attempted; their target rows and logs are untouched. -/
theorem early_abort_on_first_failure (env : PublishEnv) (extId : String → String)
    (st : StoreState) (postID : Int) (post : PostRow) (p msg : String)
    (hpost : GetPost st postID = Except.ok post)
    (hp : p ∈ (["twitter", "pinterest", "facebook", "instagram"] : List String))
    (hsel : mapGet (ListTargets st postID) p = true)
    (hfail : env.outcome p = Except.error msg)
    (hearlier : ∀ q ∈ (["twitter", "pinterest", "facebook", "instagram"] :
        List String).takeWhile (fun r => !(r == p)),
      mapGet (ListTargets st postID) q = true →
      env.outcome q = Except.ok (extId q)) :
    (publishSelected env st postID).2 = Except.error msg ∧
    targetStatusOf ((publishSelected env st postID).1) postID p = some "failed" ∧
    (∀ q, q ∈ ((["twitter", "pinterest", "facebook", "instagram"] :
        List String).dropWhile (fun r => !(r == p))).drop 1 ++ ["tiktok"] →
      targetRows ((publishSelected env st postID).1) postID q =
        targetRows st postID q ∧
      logsFor ((publishSelected env st postID).1) q = logsFor st q) := by
  have hid := GetPost_ok_id st postID post hpost
  fin_cases hp
  · -- the failing platform is twitter, the first in the enumeration
    have hrun : publishSelected env st postID =
        (AddLog (SetTargetStatus st postID "twitter" "failed" none (some msg))
          postID (some "twitter") "error" msg, Except.error msg) := by
      unfold publishSelected
      dsimp only
      rw [hpost]
      dsimp only
      simp only [publishToTwitter, publishToPinterest, publishToFacebook,
        publishToInstagram]
      rw [step_reduce_fail env (ListTargets st postID) "twitter" "tweet_id="
        post.id st msg hsel hfail]
      simp only [andThen_err]
      rw [hid]
    refine ⟨by rw [hrun], ?_, ?_⟩
    · rw [hrun]
      simp only [targetStatusOf_AddLog]
      exact targetStatusOf_set_same st postID "twitter" "failed" none (some msg)
        (by decide)
    · intro q hq
      rw [(by decide : ((["twitter", "pinterest", "facebook", "instagram"] :
          List String).dropWhile (fun r => !(r == "twitter"))).drop 1 ++
          ["tiktok"] = ["pinterest", "facebook", "instagram", "tiktok"])] at hq
      rw [hrun]
      fin_cases hq <;>
        exact failWrites_preserve st postID postID "twitter" msg _
          (by decide) (by decide)
  · -- the failing platform is pinterest; a selected twitter succeeded first
    have hrun : publishSelected env st postID =
        (AddLog (SetTargetStatus
            (okStep st postID (ListTargets st postID) "twitter" "tweet_id="
              (extId "twitter"))
            postID "pinterest" "failed" none (some msg))
          postID (some "pinterest") "error" msg, Except.error msg) := by
      unfold publishSelected
      dsimp only
      rw [hpost]
      dsimp only
      simp only [publishToTwitter, publishToPinterest, publishToFacebook,
        publishToInstagram]
      rw [step_reduce_ok env extId (ListTargets st postID) "twitter" "tweet_id="
        post.id st (hearlier "twitter" (by decide))]
      simp only [andThen_ok]
      rw [step_reduce_fail env (ListTargets st postID) "pinterest" "pin_id="
        post.id _ msg hsel hfail]
      simp only [andThen_err]
      rw [hid]
    refine ⟨by rw [hrun], ?_, ?_⟩
    · rw [hrun]
      simp only [targetStatusOf_AddLog]
      exact targetStatusOf_set_same _ postID "pinterest" "failed" none (some msg)
        (by decide)
    · intro q hq
      rw [(by decide : ((["twitter", "pinterest", "facebook", "instagram"] :
          List String).dropWhile (fun r => !(r == "pinterest"))).drop 1 ++
          ["tiktok"] = ["facebook", "instagram", "tiktok"])] at hq
      rw [hrun]
      fin_cases hq <;>
      · refine ⟨?_, ?_⟩
        · rw [(failWrites_preserve _ postID postID "pinterest" msg _
            (by decide) (by decide)).1]
          exact (okStep_preserve st postID postID _ "twitter" "tweet_id="
            (extId "twitter") _ (by decide) (by decide)).1
        · rw [(failWrites_preserve _ postID postID "pinterest" msg _
            (by decide) (by decide)).2]
          exact (okStep_preserve st postID postID _ "twitter" "tweet_id="
            (extId "twitter") _ (by decide) (by decide)).2
  · -- the failing platform is facebook; selected twitter and pinterest
    -- succeeded first
    have hrun : publishSelected env st postID =
        (AddLog (SetTargetStatus
            (okStep (okStep st postID (ListTargets st postID) "twitter"
                "tweet_id=" (extId "twitter"))
              postID (ListTargets st postID) "pinterest" "pin_id="
              (extId "pinterest"))
            postID "facebook" "failed" none (some msg))
          postID (some "facebook") "error" msg, Except.error msg) := by
      unfold publishSelected
      dsimp only
      rw [hpost]
      dsimp only
      simp only [publishToTwitter, publishToPinterest, publishToFacebook,
        publishToInstagram]
      rw [step_reduce_ok env extId (ListTargets st postID) "twitter" "tweet_id="
        post.id st (hearlier "twitter" (by decide))]
      simp only [andThen_ok]
      rw [step_reduce_ok env extId (ListTargets st postID) "pinterest" "pin_id="
        post.id _ (hearlier "pinterest" (by decide))]
      simp only [andThen_ok]
      rw [step_reduce_fail env (ListTargets st postID) "facebook" "id="
        post.id _ msg hsel hfail]
      simp only [andThen_err]
      rw [hid]
    refine ⟨by rw [hrun], ?_, ?_⟩
    · rw [hrun]
      simp only [targetStatusOf_AddLog]
      exact targetStatusOf_set_same _ postID "facebook" "failed" none (some msg)
        (by decide)
    · intro q hq
      rw [(by decide : ((["twitter", "pinterest", "facebook", "instagram"] :
          List String).dropWhile (fun r => !(r == "facebook"))).drop 1 ++
          ["tiktok"] = ["instagram", "tiktok"])] at hq
      rw [hrun]
      fin_cases hq <;>
      · refine ⟨?_, ?_⟩
        · rw [(failWrites_preserve _ postID postID "facebook" msg _
            (by decide) (by decide)).1]
          rw [(okStep_preserve _ postID postID _ "pinterest" "pin_id="
            (extId "pinterest") _ (by decide) (by decide)).1]
          exact (okStep_preserve st postID postID _ "twitter" "tweet_id="
            (extId "twitter") _ (by decide) (by decide)).1
        · rw [(failWrites_preserve _ postID postID "facebook" msg _
            (by decide) (by decide)).2]
          rw [(okStep_preserve _ postID postID _ "pinterest" "pin_id="
            (extId "pinterest") _ (by decide) (by decide)).2]
          exact (okStep_preserve st postID postID _ "twitter" "tweet_id="
            (extId "twitter") _ (by decide) (by decide)).2
  · -- the failing platform is instagram; the three earlier selected
    -- platforms succeeded first
    have hrun : publishSelected env st postID =
        (AddLog (SetTargetStatus
            (okStep (okStep (okStep st postID (ListTargets st postID) "twitter"
                  "tweet_id=" (extId "twitter"))
                postID (ListTargets st postID) "pinterest" "pin_id="
                (extId "pinterest"))
              postID (ListTargets st postID) "facebook" "id=" (extId "facebook"))
            postID "instagram" "failed" none (some msg))
          postID (some "instagram") "error" msg, Except.error msg) := by
      unfold publishSelected
      dsimp only
      rw [hpost]
      dsimp only
      simp only [publishToTwitter, publishToPinterest, publishToFacebook,
        publishToInstagram]
      rw [step_reduce_ok env extId (ListTargets st postID) "twitter" "tweet_id="
        post.id st (hearlier "twitter" (by decide))]
      simp only [andThen_ok]
      rw [step_reduce_ok env extId (ListTargets st postID) "pinterest" "pin_id="
        post.id _ (hearlier "pinterest" (by decide))]
      simp only [andThen_ok]
      rw [step_reduce_ok env extId (ListTargets st postID) "facebook" "id="
        post.id _ (hearlier "facebook" (by decide))]
      simp only [andThen_ok]
      rw [step_reduce_fail env (ListTargets st postID) "instagram" "id="
        post.id _ msg hsel hfail]
      rw [hid]
    refine ⟨by rw [hrun], ?_, ?_⟩
    · rw [hrun]
      simp only [targetStatusOf_AddLog]
      exact targetStatusOf_set_same _ postID "instagram" "failed" none (some msg)
        (by decide)
    · intro q hq
      rw [(by decide : ((["twitter", "pinterest", "facebook", "instagram"] :
          List String).dropWhile (fun r => !(r == "instagram"))).drop 1 ++
          ["tiktok"] = ["tiktok"])] at hq
      rw [hrun]
      fin_cases hq
      refine ⟨?_, ?_⟩
      · rw [(failWrites_preserve _ postID postID "instagram" msg _
          (by decide) (by decide)).1]
        rw [(okStep_preserve _ postID postID _ "facebook" "id="
          (extId "facebook") _ (by decide) (by decide)).1]
        rw [(okStep_preserve _ postID postID _ "pinterest" "pin_id="
          (extId "pinterest") _ (by decide) (by decide)).1]
        exact (okStep_preserve st postID postID _ "twitter" "tweet_id="
          (extId "twitter") _ (by decide) (by decide)).1
      · rw [(failWrites_preserve _ postID postID "instagram" msg _
          (by decide) (by decide)).2]
        rw [(okStep_preserve _ postID postID _ "facebook" "id="
          (extId "facebook") _ (by decide) (by decide)).2]
        rw [(okStep_preserve _ postID postID _ "pinterest" "pin_id="
          (extId "pinterest") _ (by decide) (by decide)).2]
        exact (okStep_preserve st postID postID _ "twitter" "tweet_id="
          (extId "twitter") _ (by decide) (by decide)).2

/-- Witness for C3: with twitter and pinterest selected, twitter succeeding
and pinterest failing, the run returns the pinterest error, records the
pinterest failure, and leaves the facebook rows and logs untouched. -/
theorem early_abort_on_first_failure_witness :
    (publishSelected envPinterestFail stTwitterPinterest 1).2 =
      Except.error "boom" ∧
    targetStatusOf ((publishSelected envPinterestFail stTwitterPinterest 1).1)
      1 "pinterest" = some "failed" ∧
    targetRows ((publishSelected envPinterestFail stTwitterPinterest 1).1) 1
      "facebook" = targetRows stTwitterPinterest 1 "facebook" ∧
    logsFor ((publishSelected envPinterestFail stTwitterPinterest 1).1)
      "facebook" = logsFor stTwitterPinterest "facebook" := by
  have h := early_abort_on_first_failure envPinterestFail (fun _ => "ext-1")
    stTwitterPinterest 1 postSample "pinterest" "boom" (by decide) (by decide)
    (by decide) (by decide)
    (by
      intro q hq hselq
      rw [(by decide : (["twitter", "pinterest", "facebook", "instagram"] :
          List String).takeWhile (fun r => !(r == "pinterest")) =
          ["twitter"])] at hq
      fin_cases hq
      decide)
  have hfb := h.2.2 "facebook" (by decide)
  exact ⟨h.1, h.2.1, hfb.1, hfb.2⟩

/-- C1 counterexample.  On a post whose only selected platform is tiktok,
publishSelected changes nothing at all: the run reports success, the tiktok
target row still has status pending, and no log entry is written — no
publish attempt is recorded for tiktok, contrary to the claim. -/
theorem tiktok_never_attempted_cex :
    mapGet (ListTargets stTiktokOnly 1) "tiktok" = true ∧
    publishSelected envOkSample stTiktokOnly 1 = (stTiktokOnly, Except.ok ()) ∧
    targetStatusOf ((publishSelected envOkSample stTiktokOnly 1).1) 1 "tiktok" =
      some "pending" ∧
    ((publishSelected envOkSample stTiktokOnly 1).1).logs = [] := by decide

/-- C1 as amended.  When publish is invoked and no connector call fails,
every selected platform among the four implemented ones — twitter,
pinterest, facebook, instagram — has its connector invoked, in exactly that
enumeration order (the published log entries appear in that order), and its
target row is set to published; a tiktok selection is never attempted: its
target rows and logs are untouched. -/
theorem publish_dispatch_four_platforms (env : PublishEnv) (extId : String → String)
    (henv : ∀ p, env.outcome p = Except.ok (extId p))
    (st : StoreState) (postID : Int) (post : PostRow)
    (hpost : GetPost st postID = Except.ok post) :
    (publishSelected env st postID).2 = Except.ok () ∧
    ((publishSelected env st postID).1).logs = st.logs ++
      ((["twitter", "pinterest", "facebook", "instagram"].filter
          (fun p => mapGet (ListTargets st postID) p)).map
        (fun p => ⟨postID, some p, "published",
          (if p == "twitter" then "tweet_id="
           else if p == "pinterest" then "pin_id=" else "id=") ++ extId p⟩)) ∧
    (∀ p, p ∈ (["twitter", "pinterest", "facebook", "instagram"] : List String) →
      mapGet (ListTargets st postID) p = true →
      targetStatusOf ((publishSelected env st postID).1) postID p =
        some "published") ∧
    targetRows ((publishSelected env st postID).1) postID "tiktok" =
      targetRows st postID "tiktok" ∧
    logsFor ((publishSelected env st postID).1) "tiktok" = logsFor st "tiktok" := by
  have hid := GetPost_ok_id st postID post hpost
  have hrun := publishSelected_allOk env extId henv st postID post hpost
  rw [hid] at hrun
  refine ⟨by rw [hrun], ?_, ?_, ?_, ?_⟩
  · rw [hrun]
    dsimp only
    by_cases h1 : mapGet (ListTargets st postID) "twitter" = true <;>
    by_cases h2 : mapGet (ListTargets st postID) "pinterest" = true <;>
    by_cases h3 : mapGet (ListTargets st postID) "facebook" = true <;>
    by_cases h4 : mapGet (ListTargets st postID) "instagram" = true <;>
    simp [okStep_logs, okStep_posts, h1, h2, h3, h4, List.filter]
  · intro p hp hsel
    rw [hrun]
    dsimp only
    fin_cases hp
    · rw [targetStatusOf_okStep_other _ _ _ _ _ _ _ _
        (by rintro ⟨-, h⟩; exact absurd h (by decide))]
      rw [targetStatusOf_okStep_other _ _ _ _ _ _ _ _
        (by rintro ⟨-, h⟩; exact absurd h (by decide))]
      rw [targetStatusOf_okStep_other _ _ _ _ _ _ _ _
        (by rintro ⟨-, h⟩; exact absurd h (by decide))]
      exact targetStatusOf_okStep_same _ _ _ _ _ _ hsel (by decide)
    · rw [targetStatusOf_okStep_other _ _ _ _ _ _ _ _
        (by rintro ⟨-, h⟩; exact absurd h (by decide))]
      rw [targetStatusOf_okStep_other _ _ _ _ _ _ _ _
        (by rintro ⟨-, h⟩; exact absurd h (by decide))]
      exact targetStatusOf_okStep_same _ _ _ _ _ _ hsel (by decide)
    · rw [targetStatusOf_okStep_other _ _ _ _ _ _ _ _
        (by rintro ⟨-, h⟩; exact absurd h (by decide))]
      exact targetStatusOf_okStep_same _ _ _ _ _ _ hsel (by decide)
    · exact targetStatusOf_okStep_same _ _ _ _ _ _ hsel (by decide)
  · rw [hrun]
    dsimp only
    rw [targetRows_okStep_other _ _ _ _ _ _ _ _
      (by rintro ⟨-, h⟩; exact absurd h (by decide))]
    rw [targetRows_okStep_other _ _ _ _ _ _ _ _
      (by rintro ⟨-, h⟩; exact absurd h (by decide))]
    rw [targetRows_okStep_other _ _ _ _ _ _ _ _
      (by rintro ⟨-, h⟩; exact absurd h (by decide))]
    rw [targetRows_okStep_other _ _ _ _ _ _ _ _
      (by rintro ⟨-, h⟩; exact absurd h (by decide))]
  · rw [hrun]
    dsimp only
    rw [logsFor_okStep_other _ _ _ _ _ _ _ (by decide)]
    rw [logsFor_okStep_other _ _ _ _ _ _ _ (by decide)]
    rw [logsFor_okStep_other _ _ _ _ _ _ _ (by decide)]
    rw [logsFor_okStep_other _ _ _ _ _ _ _ (by decide)]

/-- Witness for C1's amended statement at a concrete store with twitter and
pinterest selected and an all-success environment. -/
theorem publish_dispatch_four_platforms_witness :
    targetStatusOf ((publishSelected envOkSample stTwitterPinterest 1).1) 1
      "pinterest" = some "published" ∧
    targetRows ((publishSelected envOkSample stTwitterPinterest 1).1) 1
      "tiktok" = targetRows stTwitterPinterest 1 "tiktok" := by
  have h := publish_dispatch_four_platforms envOkSample (fun _ => "ext-1")
    (fun p => rfl) stTwitterPinterest 1 postSample (by decide)
  exact ⟨h.2.2.1 "pinterest" (by decide) (by decide), h.2.2.2.1⟩

/-- C6.  On a fresh post every valid platform reads as unselected; the first
toggle inserts a pending target row and reports enabled, the second toggle
deletes it and reports disabled, restoring the original store exactly. -/
theorem toggle_twice_identity (st : StoreState) (postID : Int) (p : String)
    (hp : p ∈ Platforms) (hfresh : targetRowsAll st postID = []) :
    mapGet (ListTargets st postID) p = false ∧
    ToggleTarget st postID p = Except.ok (true,
      { st with targets := st.targets ++ [⟨postID, p, "pending", none, none⟩] }) ∧
    ToggleTarget
      { st with targets := st.targets ++ [⟨postID, p, "pending", none, none⟩] }
      postID p = Except.ok (false, st) := by
  have hcase : p = "twitter" ∨ p = "pinterest" ∨ p = "facebook" ∨
      p = "instagram" ∨ p = "tiktok" := by simpa [Platforms] using hp
  have hlow : goToLower p = p := by
    rcases hcase with rfl | rfl | rfl | rfl | rfl <;> decide
  have hvalid : validPlatform p = true := by
    rcases hcase with rfl | rfl | rfl | rfl | rfl <;> decide
  have hfilter0 : st.targets.filter (fun t => t.postId == postID) = [] := hfresh
  have hnokey : ∀ t ∈ st.targets, (t.postId == postID) = false := by
    intro t ht
    have := List.filter_eq_nil_iff.mp hfilter0 t ht
    simpa using this
  have hany : (st.targets.any fun t => t.postId == postID && t.platform == p) = false := by
    rw [List.any_eq_false]
    intro t ht
    simp [hnokey t ht]
  refine ⟨?_, ?_, ?_⟩
  · unfold ListTargets
    rw [hfilter0]
    simp only [List.foldl_nil]
    rcases hcase with rfl | rfl | rfl | rfl | rfl <;> decide
  · unfold ToggleTarget
    dsimp only
    rw [hlow, if_neg (by simp [hvalid]), if_neg (by simp [hany])]
  · unfold ToggleTarget
    dsimp only
    rw [hlow, if_neg (by simp [hvalid])]
    have hany2 : ((st.targets ++ [(⟨postID, p, "pending", none, none⟩ : TargetRow)]).any
        fun t => t.postId == postID && t.platform == p) = true := by
      rw [List.any_append]
      have h1 : (([(⟨postID, p, "pending", none, none⟩ : TargetRow)]).any
          fun t => t.postId == postID && t.platform == p) = true := by simp
      rw [h1, Bool.or_true]
    rw [if_pos hany2]
    have hfilter2 : (st.targets ++ [(⟨postID, p, "pending", none, none⟩ : TargetRow)]).filter
        (fun t => !(t.postId == postID && t.platform == p)) = st.targets := by
      rw [List.filter_append]
      have ha : st.targets.filter (fun t => !(t.postId == postID && t.platform == p)) =
          st.targets := by
        rw [List.filter_eq_self]
        intro t ht
        simp [hnokey t ht]
      have hb : [(⟨postID, p, "pending", none, none⟩ : TargetRow)].filter
          (fun t => !(t.postId == postID && t.platform == p)) = [] := by simp
      rw [ha, hb, List.append_nil]
    rw [hfilter2]

/-- Witness for C6 at a concrete fresh post and the twitter platform. -/
theorem toggle_twice_identity_witness :
    mapGet (ListTargets stFresh 1) "twitter" = false ∧
    ToggleTarget stFresh 1 "twitter" = Except.ok (true,
      { stFresh with targets := stFresh.targets ++ [⟨1, "twitter", "pending", none, none⟩] }) ∧
    ToggleTarget
      { stFresh with targets := stFresh.targets ++ [⟨1, "twitter", "pending", none, none⟩] }
      1 "twitter" = Except.ok (false, stFresh) :=
  toggle_twice_identity stFresh 1 "twitter" (by decide) (by decide)

theorem maxPos_append (l : List Int) (x : Int) :
    maxPos (l ++ [x]) = some ((maxPos l).elim x (fun m => max m x)) := by
  induction l with
  | nil => rfl
  | cons h t ih =>
    show maxPos (h :: (t ++ [x])) = _
    simp only [maxPos, ih]
    cases hm : maxPos t with
    | none => simp [maxPos, hm]
    | some m =>
      simp only [maxPos, hm, Option.elim]
      rw [max_assoc]

theorem maxPos_range (k : Nat) :
    maxPos ((List.range (k + 1)).map (fun i : Nat => (i : Int))) = some (k : Int) := by
  induction k with
  | zero => rfl
  | succ n ih =>
    rw [List.range_succ, List.map_append]
    simp only [List.map_cons, List.map_nil]
    rw [maxPos_append, ih]
    simp only [Option.elim]
    congr 1
    rw [max_eq_right (by omega)]

theorem nextPosition_of_range (st : StoreState) (pid : Int) (k : Nat)
    (h : postPositions st pid = (List.range k).map (fun i : Nat => (i : Int))) :
    nextPosition st pid = (k : Int) := by
  unfold nextPosition
  rw [h]
  cases k with
  | zero => rfl
  | succ n =>
    rw [maxPos_range n]
    show ((n : Int) + 1) = ((n + 1 : Nat) : Int)
    omega

/-- Each AddMedia call appends its post's position list with the
`COALESCE(MAX(position)+1, 0)` value. -/
theorem postPositions_AddMedia (st : StoreState) (pid : Int) (f mt : String) :
    postPositions ((AddMedia st pid f mt).2) pid =
      postPositions st pid ++ [nextPosition st pid] := by
  unfold AddMedia postPositions
  dsimp only
  rw [List.filter_append, List.map_append]
  simp [List.filter]

/-- C8.  Starting from a post with no media, n AddMedia calls assign exactly
the positions 0 through n-1, in order: dense, strictly increasing, starting
at 0. -/
theorem addMedia_positions_dense (st : StoreState) (pid : Int)
    (fs : List (String × String)) (hfresh : postPositions st pid = []) :
    postPositions (addMediaAll st pid fs) pid =
      (List.range fs.length).map (fun i : Nat => (i : Int)) := by
  suffices h : ∀ (fs : List (String × String)) (st : StoreState) (k : Nat),
      postPositions st pid = (List.range k).map (fun i : Nat => (i : Int)) →
      postPositions (addMediaAll st pid fs) pid =
        (List.range (k + fs.length)).map (fun i : Nat => (i : Int)) by
    have := h fs st 0 (by simpa using hfresh)
    simpa using this
  intro fs
  induction fs with
  | nil =>
    intro st k h
    simpa [addMediaAll] using h
  | cons fm rest ih =>
    intro st k h
    have hstep : postPositions ((AddMedia st pid fm.1 fm.2).2) pid =
        (List.range (k + 1)).map (fun i : Nat => (i : Int)) := by
      rw [postPositions_AddMedia, h, nextPosition_of_range st pid k h,
        List.range_succ, List.map_append]
      simp only [List.map_cons, List.map_nil]
    have hfold : addMediaAll st pid (fm :: rest) =
        addMediaAll ((AddMedia st pid fm.1 fm.2).2) pid rest := rfl
    rw [hfold, ih _ (k + 1) hstep, List.length_cons]
    have heq : k + 1 + rest.length = k + (rest.length + 1) := by omega
    rw [heq]

/-- Witness for C8: three additions to a fresh post give positions 0, 1, 2. -/
theorem addMedia_positions_dense_witness :
    postPositions (addMediaAll stFresh 1
        [("f1", "photo"), ("f2", "video"), ("f3", "photo")]) 1 =
      (List.range 3).map (fun i : Nat => (i : Int)) :=
  addMedia_positions_dense stFresh 1 _ (by decide)

theorem charToLower_idem (c : Char) : charToLower (charToLower c) = charToLower c := by
  unfold charToLower
  by_cases h : 65 ≤ c.toNat ∧ c.toNat ≤ 90
  · rw [if_pos h]
    obtain ⟨h1, h2⟩ := h
    generalize hn : c.toNat = n at h1 h2
    interval_cases n <;> decide
  · rw [if_neg h, if_neg h]

theorem goToLower_idem (s : String) : goToLower (goToLower s) = goToLower s := by
  unfold goToLower
  dsimp only
  apply congrArg
  rw [List.map_map]
  apply List.map_congr_left
  intro a _
  exact charToLower_idem a

theorem mapSet_keys_of_mem (m : List (String × Bool)) (k : String) (v : Bool)
    (h : k ∈ m.map Prod.fst) :
    (mapSet m k v).map Prod.fst = m.map Prod.fst := by
  unfold mapSet
  have hany : (m.any fun kv => kv.1 == k) = true := by
    rw [List.any_eq_true]
    obtain ⟨kv, hkv, hfst⟩ := List.mem_map.mp h
    exact ⟨kv, hkv, by simp [hfst]⟩
  rw [if_pos hany, List.map_map]
  apply List.map_congr_left
  intro kv _
  by_cases hk : kv.1 = k
  · simp [hk]
  · simp [hk]

theorem keys_foldl_mapSet (rows : List TargetRow) (m : List (String × Bool))
    (h : ∀ t ∈ rows, goToLower t.platform ∈ m.map Prod.fst) :
    ((rows.foldl (fun acc t => mapSet acc (goToLower t.platform) true) m).map
      Prod.fst) = m.map Prod.fst := by
  induction rows generalizing m with
  | nil => rfl
  | cons t rest ih =>
    simp only [List.foldl_cons]
    have hk : (mapSet m (goToLower t.platform) true).map Prod.fst = m.map Prod.fst :=
      mapSet_keys_of_mem m _ true (h t (by simp))
    have hrest : ∀ u ∈ rest,
        goToLower u.platform ∈ (mapSet m (goToLower t.platform) true).map Prod.fst := by
      intro u hu
      rw [hk]
      exact h u (by simp [hu])
    rw [ih _ hrest, hk]

/-- C9.  Platform-name handling at the Post Store interface is
case-insensitive: ToggleTarget and SetTargetStatus behave identically on an
argument and on its lowercased form, and the keys of the ListTargets result
are exactly the lowercase enumerated platform names whenever every stored
target row carries a platform from the enumerated set. -/
theorem platform_case_insensitive :
    (∀ (st : StoreState) (pid : Int) (p : String),
      ToggleTarget st pid p = ToggleTarget st pid (goToLower p)) ∧
    (∀ (st : StoreState) (pid : Int) (p s : String) (e er : Option String),
      SetTargetStatus st pid p s e er = SetTargetStatus st pid (goToLower p) s e er) ∧
    (∀ (st : StoreState) (pid : Int),
      (∀ t ∈ st.targets, goToLower t.platform ∈ Platforms) →
      (ListTargets st pid).map Prod.fst = Platforms) := by
  refine ⟨?_, ?_, ?_⟩
  · intro st pid p
    unfold ToggleTarget
    rw [goToLower_idem]
  · intro st pid p s e er
    unfold SetTargetStatus
    rw [goToLower_idem]
  · intro st pid h
    unfold ListTargets
    rw [keys_foldl_mapSet _ _ (by
      intro t ht
      have hmem : goToLower t.platform ∈ Platforms := h t (List.mem_filter.mp ht).1
      rw [List.map_map]
      simpa using hmem)]
    rw [List.map_map]
    decide

/-- Witness for C9: a mixed-case toggle equals its lowercased form, and the
ListTargets keys of a store holding only enumerated platforms are exactly
the enumerated set. -/
theorem platform_case_insensitive_witness :
    ToggleTarget stFresh 1 "TwItTeR" = ToggleTarget stFresh 1 (goToLower "TwItTeR") ∧
    (ListTargets stTiktokOnly 1).map Prod.fst = Platforms :=
  ⟨platform_case_insensitive.1 stFresh 1 "TwItTeR",
   platform_case_insensitive.2.2 stTiktokOnly 1 (by decide)⟩

end TrinityBot
